import Mathlib

/-!
Shallow embedding of the extraction pipeline of the AvitoParsing repository
(`src/parser.py`) and analysis layer (`src/analyzer.py`).

Python floats are modelled as rationals (`ℚ`); machine-level float
rounding is out of scope.  Python dicts with a fixed key set are modelled
as structures; a key the code only sometimes includes is modelled as an
`Option` field.  HTTP, BeautifulSoup and the random generator are
modelled as oracle functions passed in as parameters.
-/

/-- Test that `p` is a prefix of `s` (character lists). -/
def startsWith : List Char → List Char → Bool
  | [], _ => true
  | _ :: _, [] => false
  | p :: ps, s :: ss => p == s && startsWith ps ss

/-- Python substring containment `p in s` on character lists. -/
def containsSub (p : List Char) : List Char → Bool
  | [] => p.isEmpty
  | c :: rest => startsWith p (c :: rest) || containsSub p rest

/-- Value of a string of ASCII digits, as the Python `int`/`float` readers would. -/
def digitsToNat (l : List Char) : Nat :=
  l.foldl (fun a c => a * 10 + (c.toNat - 48)) 0

/-- Python `float()` applied to a non-empty string made only of digits and
dots (the alphabet produced by the digit/dot filter of the parser): defined iff
there is at most one dot and at least one digit; `"1."`, `".5"` parse,
`"."` and `"1.2.3"` raise `ValueError` (modelled as `none`). -/
def pyFloatDD (s : List Char) : Option ℚ :=
  if s.count '.' ≤ 1 ∧ s.any (fun c => c.isDigit) then
    some ((digitsToNat (s.takeWhile (fun c => c ≠ '.')) : ℚ) +
      (digitsToNat ((s.dropWhile (fun c => c ≠ '.')).drop 1) : ℚ) /
        (10 : ℚ) ^ ((s.dropWhile (fun c => c ≠ '.')).drop 1).length)
  else none

/-- Lowercasing covering ASCII and the Cyrillic range used by the source
(Python `str.lower`, restricted to the characters the parser compares). -/
def toLowerRu (c : Char) : Char :=
  if 'А' ≤ c ∧ c ≤ 'Я' then Char.ofNat (c.toNat + 32)
  else if c = 'Ё' then 'ё'
  else c.toLower

/-- Python `str.lower()` over the alphabets the parser cares about. -/
def strLower (s : String) : String := (s.toList.map toLowerRu).asString

/-- Model of `re.search` for the markup price patterns, all of shape
`pre(\d+)` or `pre(\d+)"`: leftmost position where `pre` is followed by a
non-empty digit run (and, when `quoted`, a closing quote right after the
maximal run — the regex cannot match otherwise, since any shorter digit
prefix is followed by a digit, not a quote).  Returns the digit group. -/
def scanPattern (pre : List Char) (quoted : Bool) : List Char → Option (List Char)
  | [] => none
  | c :: rest =>
    if startsWith pre (c :: rest) then
      let tail := (c :: rest).drop pre.length
      let ds := tail.takeWhile (fun x => x.isDigit)
      if ds.isEmpty then scanPattern pre quoted rest
      else if quoted then
        match (tail.drop ds.length).head? with
        | some '"' => some ds
        | _ => scanPattern pre quoted rest
      else some ds
    else scanPattern pre quoted rest

/-- The second price tier: the four markup patterns
`data-price="(\d+)"`, `price":"(\d+)"`, `price":(\d+)`, `price=(\d+)`
tried in order over the raw HTML string; the first match wins
(the `for pattern ... break` loop of the source), its digit group read
as a float. -/
def markupPrice (s : List Char) : Option ℚ :=
  match scanPattern "data-price=\"".toList true s with
  | some ds => some (digitsToNat ds : ℚ)
  | none =>
    match scanPattern "price\":\"".toList true s with
    | some ds => some (digitsToNat ds : ℚ)
    | none =>
      match scanPattern "price\":".toList false s with
      | some ds => some (digitsToNat ds : ℚ)
      | none =>
        match scanPattern "price=".toList false s with
        | some ds => some (digitsToNat ds : ℚ)
        | none => none

/-- Drop trailing characters that are not digits. -/
def dropTrailingNonDigits (l : List Char) : List Char :=
  (l.reverse.dropWhile (fun c => !c.isDigit)).reverse

/-- Group 1 of the visible-text regex
`(\d[\d\s]*\d|\d+)[.,]?\d*\s*(руб|₽)?`: the trailing parts are all
optional, so the match starts at the first digit; the first alternative
greedily takes the maximal digit/whitespace run and backtracks to its
last digit (needs length ≥ 2), else the second alternative yields that
single digit. -/
def textGroup : List Char → Option (List Char)
  | [] => none
  | c :: rest =>
    if c.isDigit then
      let g := dropTrailingNonDigits
        ((c :: rest).takeWhile (fun x => x.isDigit || x.isWhitespace))
      if 2 ≤ g.length then some g else some [c]
    else textGroup rest

/-- The third price tier: regex search over the full visible
text of the fragment, then `.replace(' ', '')` (spaces only — other whitespace
survives and makes `float()` raise `ValueError`, modelled as `none`). -/
def textPrice (s : List Char) : Option ℚ :=
  match textGroup s with
  | none => none
  | some g =>
    let ps := g.filter (fun c => c ≠ ' ')
    if ps.all (fun c => c.isDigit) then some (digitsToNat ps : ℚ) else none

/-- One listing fragment, characterised by what each selector/text query
the extractor performs would return on it (`none` = selector matched no
element; `some t` = the text, or attribute value, of the matched element). -/
structure Fragment where
  /-- Models `item_element.get("data-item-id", "")` -/
  dataItemId : String := ""
  /-- Models `item_element.get("id", "")` -/
  idAttr : String := ""
  /-- text of `[itemprop="name"]` -/
  nameEl : Option String := none
  /-- text of `.title-root` -/
  titleRootEl : Option String := none
  /-- text of `[data-marker="item-title"]` -/
  titleMarkerEl : Option String := none
  /-- The `href` of `a[href^="/"]` (such an anchor always carries `href`) -/
  linkRelHref : Option String := none
  /-- Models `a[itemprop="url"]`: outer = element found, inner = its `href` attr -/
  linkUrlHref : Option (Option String) := none
  /-- text of `[data-marker="item-price"]` -/
  priceMarkerEl : Option String := none
  /-- text of `[itemprop="price"]` -/
  priceItempropEl : Option String := none
  /-- text of `.styles-module-root-_KFFt` -/
  priceStylesEl : Option String := none
  /-- text of `.price-text` -/
  priceTextEl : Option String := none
  /-- text of `[class*="price"]` -/
  priceClassEl : Option String := none
  /-- Models `str(item_element)` -/
  htmlStr : String := ""
  /-- Models `item_element.get_text(strip=True)` -/
  fullText : String := ""
  /-- text of `[data-marker="item-date"]` -/
  dateEl : Option String := none
  /-- text of `[data-marker="item-location"]` -/
  locMarkerEl : Option String := none
  /-- text of `[class*="geo"]` -/
  locGeoEl : Option String := none
  /-- text of `[class*="location"]` -/
  locAltEl : Option String := none
  deriving DecidableEq

/-- The record produced for one listing: the six required fields, plus
the diagnostic `error` key that only the exception path populates.
Presence of all required keys is intrinsic to the structure, mirroring
the source dict that is initialised with every key up front. -/
structure Record where
  id : String
  title : String
  url : String
  price : ℚ
  date : String
  location : String
  error : Option String := none
  deriving DecidableEq

/-- Price tiers 1 and 2 of `_parse_item`: the selector cascade (strip,
keep digits and dots, `float()`, `ValueError` → 0), else the markup
pattern search over the raw HTML. -/
def tier12 (f : Fragment) : ℚ :=
  match f.priceMarkerEl <|> f.priceItempropEl <|> f.priceStylesEl <|>
      f.priceTextEl <|> f.priceClassEl with
  | some pt =>
    let filtered := pt.trim.toList.filter (fun c => c.isDigit || c == '.')
    if filtered.isEmpty then 0 else (pyFloatDD filtered).getD 0
  | none => (markupPrice f.htmlStr.toList).getD 0

/-- The full price cascade of `_parse_item`: if tiers 1–2 left the price
at 0, tier 3 searches the visible text; a tier-3 parse failure leaves the
price at 0. -/
def extractPrice (f : Fragment) : ℚ :=
  if tier12 f = 0 then
    match textPrice f.fullText.toList with
    | some v => v
    | none => tier12 f
  else tier12 f

/-- The location cascade of `_parse_item`: data-marker or geo class; a
text containing the delivery marker is replaced by the alternate
location class when that is clean, else by the placeholder. -/
def extractLocation (f : Fragment) : String :=
  match f.locMarkerEl <|> f.locGeoEl with
  | some lt =>
    if containsSub "доставка".toList (strLower lt.trim).toList then
      match f.locAltEl with
      | some alt =>
        if !(containsSub "доставка".toList (strLower alt).toList) then alt.trim
        else "Не указано"
      | none => "Не указано"
    else lt.trim
  | none => "Не указано"

/-- Model of `AvitoParser._parse_item` (src/parser.py lines 86–198): the per-field
fallback cascades.  The Python body is wrapped in try/except; every
operation modelled here is total, so the except branch (see
`parseItemError`) is unreachable in the model. -/
def parseItem (f : Fragment) : Record :=
  { id :=
      if f.dataItemId ≠ "" then f.dataItemId
      else (f.idAttr.toList.filter (fun c => c ≠ 'i')).asString
    title :=
      match f.nameEl <|> f.titleRootEl <|> f.titleMarkerEl with
      | some t => t.trim
      | none => "Нет заголовка"
    url :=
      match f.linkRelHref with
      | some href => "https://www.avito.ru" ++ href
      | none =>
        match f.linkUrlHref with
        | some (some href) => "https://www.avito.ru" ++ href
        | _ => ""
    price := extractPrice f
    date :=
      match f.dateEl with
      | some d => d.trim
      | none => ""
    location := extractLocation f
    error := none }

/-- The except-branch of `_parse_item` (src/parser.py lines 199–209):
all fields defaulted, diagnostic string recorded. -/
def parseItemError (msg : String) : Record :=
  { id := "", title := "", url := "", price := 0, date := "", location := "",
    error := some msg }

/-! ### Analyzer (src/analyzer.py) -/

/-- Python `min` over a non-empty list (on `[]` Python raises; the source
only calls it on non-empty lists, modelled as 0 on `[]`). -/
def pyMin : List ℚ → ℚ
  | [] => 0
  | x :: xs => xs.foldl min x

/-- Python `max` over a non-empty list, same convention as `pyMin`. -/
def pyMax : List ℚ → ℚ
  | [] => 0
  | x :: xs => xs.foldl max x

/-- Ascending insertion, for the sort inside `npMedian`. -/
def insertSorted (x : ℚ) : List ℚ → List ℚ
  | [] => [x]
  | y :: ys => if x ≤ y then x :: y :: ys else y :: insertSorted x ys

/-- Ascending sort over rationals. -/
def sortAsc (l : List ℚ) : List ℚ := l.foldr insertSorted []

/-- Model of `np.median` on a non-empty list: sort ascending; odd length takes the
middle element, even length averages the two middle elements. -/
def npMedian (l : List ℚ) : ℚ :=
  let s := sortAsc l
  if s.length % 2 = 1 then s.getD (s.length / 2) 0
  else (s.getD (s.length / 2 - 1) 0 + s.getD (s.length / 2) 0) / 2

/-- Model of `np.mean`. -/
def npMean (l : List ℚ) : ℚ := l.sum / l.length

/-- The square of `np.std` (default ddof=0): the population variance.
`np.std` itself is the square root of this; no claim inspects the std
beyond sign and presence, so the model stores the square to stay inside
the rationals. -/
def popVarSq (l : List ℚ) : ℚ :=
  (l.map (fun p => (p - npMean l) ^ 2)).sum / l.length

/-- The square of pandas `Series.std()` (default ddof=1): the sample
variance, dividing by `n - 1`. -/
def sampleVarSq (l : List ℚ) : ℚ :=
  (l.map (fun p => (p - npMean l) ^ 2)).sum / ((l.length : ℚ) - 1)

/-- The statistics dict built by `get_price_statistics`.  `std_price_sq`
holds the square of the reported `std_price` (see `popVarSq`);
`zero_prices_count` is `none` exactly when the source dict omits that
key (the empty-input branch). -/
structure Stats where
  count : Nat
  avg_price : ℚ
  median_price : ℚ
  min_price : ℚ
  max_price : ℚ
  std_price_sq : ℚ
  zero_prices_count : Option Nat
  deriving DecidableEq

/-- Model of `AvitoAnalyzer.get_price_statistics` (src/analyzer.py lines 16–72). -/
def getPriceStatistics (data : List Record) : Stats :=
  if data.isEmpty then
    { count := 0, avg_price := 0, median_price := 0, min_price := 0,
      max_price := 0, std_price_sq := 0, zero_prices_count := none }
  else
    let prices := data.map (fun r => r.price)
    let nonZeroPrices := prices.filter (fun p => decide (0 < p))
    if nonZeroPrices.isEmpty then
      { count := data.length, avg_price := 0, median_price := 0,
        min_price := 0, max_price := 0, std_price_sq := 0,
        zero_prices_count := some data.length }
    else
      { count := data.length
        avg_price := npMean nonZeroPrices
        median_price := npMedian nonZeroPrices
        min_price := pyMin nonZeroPrices
        max_price := pyMax nonZeroPrices
        std_price_sq := popVarSq nonZeroPrices
        zero_prices_count := some (prices.length - nonZeroPrices.length) }

/-- Model of `AvitoAnalyzer.find_outliers` (src/analyzer.py lines 107–148).
pandas `std()` uses ddof=1 (sample std).  The source filter is
`abs(z) > t` with `z = (price - mean) / std`, `std = sqrt(v)`; for
`v > 0` this is equivalent to `t < 0 ∨ t² v < (price - mean)²`, which is
the rational-arithmetic form used here.  A single positive price gives
pandas `std = NaN`, every NaN comparison false, hence the empty result,
matching the `length ≤ 1` guard. -/
def findOutliers (data : List Record) (t : ℚ) : List Record :=
  if data.isEmpty then []
  else
    let nz := data.filter (fun r => decide (0 < r.price))
    if nz.length ≤ 1 then []
    else
      let m : ℚ := npMean (nz.map (fun r => r.price))
      let v : ℚ := sampleVarSq (nz.map (fun r => r.price))
      if v = 0 then []
      else nz.filter (fun r => decide (t < 0) || decide ((t ^ 2 * v : ℚ) < ((r.price - m) ^ 2 : ℚ)))

/-- The comparison dict of `compare_with_previous`; when
`comparison_available` is false the source dict carries only that key,
modelled by the defaults. -/
structure Comparison where
  comparison_available : Bool
  current_count : Nat := 0
  previous_count : Nat := 0
  count_change : Int := 0
  avg_price_change : ℚ := 0
  avg_price_change_percent : ℚ := 0
  median_price_change : ℚ := 0
  median_price_change_percent : ℚ := 0
  max_price_change : ℚ := 0
  min_price_change : ℚ := 0
  deriving DecidableEq

/-- Model of `AvitoAnalyzer.compare_with_previous` (src/analyzer.py lines 151–191). -/
def compareWithPrevious (currentData previousData : List Record) : Comparison :=
  if currentData.isEmpty || previousData.isEmpty then
    { comparison_available := false }
  else
    let cs := getPriceStatistics currentData
    let ps := getPriceStatistics previousData
    { comparison_available := true
      current_count := cs.count
      previous_count := ps.count
      count_change := (cs.count : Int) - (ps.count : Int)
      avg_price_change := cs.avg_price - ps.avg_price
      avg_price_change_percent :=
        if 0 < ps.avg_price then (cs.avg_price - ps.avg_price) / ps.avg_price * 100 else 0
      median_price_change := cs.median_price - ps.median_price
      median_price_change_percent :=
        if 0 < ps.median_price then
          (cs.median_price - ps.median_price) / ps.median_price * 100
        else 0
      max_price_change := cs.max_price - ps.max_price
      min_price_change := cs.min_price - ps.min_price }

/-! ### Fetcher and paginator (src/parser.py) -/

/-- The retry loop of `_make_request` (src/parser.py lines 57–84).
`resp attempt` is the transport oracle for the attempt numbered from 0
(`none` = `requests.RequestException`, `some t` = a 2xx body `t`);
`jit attempt` is the oracle for `random.uniform(0, 1)`.  Returns the
result together with the chronological list of sleep durations.
Structurally recursive on the remaining attempt budget `fuel`, entered
with `fuel = m` and `attempt = 0`. -/
def makeRequestGo (m : Nat) (delay : ℚ) (resp : Nat → Option String)
    (jit : Nat → ℚ) : Nat → Nat → Option String × List ℚ
  | 0, _ => (none, [])
  | fuel + 1, attempt =>
    match resp attempt with
    | some t => (some t, [])
    | none =>
      let rest := makeRequestGo m delay resp jit fuel (attempt + 1)
      if attempt < m - 1 then
        (rest.1, (delay * ((attempt + 1 : Nat) : ℚ) + jit attempt) :: rest.2)
      else rest

/-- Model of `AvitoParser._make_request`: `for attempt in range(max_retries)`. -/
def makeRequest (m : Nat) (delay : ℚ) (resp : Nat → Option String)
    (jit : Nat → ℚ) : Option String × List ℚ :=
  makeRequestGo m delay resp jit m 0

/-- The URL rewrite at the top of `parse_search_page`
(src/parser.py lines 223–227). -/
def addLocalPriority (localFirst : Bool) (url : String) : String :=
  if localFirst && url.toList.contains '?' &&
      !(containsSub "&localPriority=1".toList url.toList) then
    url ++ "&localPriority=1"
  else if localFirst && !(url.toList.contains '?') then
    url ++ "?localPriority=1"
  else url

/-- Page-number URL: `f"{url}&p={page_num}"` when the URL already has a
query string, else `f"{url}?p={page_num}"`. -/
def pageUrlOf (url : String) (page : Nat) : String :=
  if url.toList.contains '?' then url ++ "&p=" ++ toString page
  else url ++ "?p=" ++ toString page

/-- Model of the `while items_count < limit` loop of `parse_search_page`
(src/parser.py lines 235–272).  `request` is the composite of
`_make_request` (`none` = failure after retries); `select` models
`BeautifulSoup(...).select("[data-marker=item]")`.  `fuel` bounds the
number of page iterations; `none` means the budget was exhausted before
the loop stopped on its own (the sufficiency of `limit + 1` is proved
below).  In Python, `if not html_content` treats the empty string like a
failure, hence the `isEmpty` test.  The per-page `for` with its
`items_count >= limit` break processes exactly
`min (items.length) (limit - acc.length)` fragments. -/
def parseSearchLoop (request : String → Option String)
    (select : String → List Fragment) (url : String) (limit : Nat) :
    Nat → Nat → List Record → Option (List Record)
  | 0, _, _ => none
  | fuel + 1, page, acc =>
    if acc.length < limit then
      match request (pageUrlOf url page) with
      | none => some acc
      | some html =>
        if html.isEmpty then some acc
        else if (select html).isEmpty then some acc
        else if limit ≤ (acc ++ ((select html).take
            (min (select html).length (limit - acc.length))).map parseItem).length then
          some (acc ++ ((select html).take
            (min (select html).length (limit - acc.length))).map parseItem)
        else if (select html).length < 50 then
          some (acc ++ ((select html).take
            (min (select html).length (limit - acc.length))).map parseItem)
        else
          parseSearchLoop request select url limit fuel (page + 1)
            (acc ++ ((select html).take
              (min (select html).length (limit - acc.length))).map parseItem)
    else some acc

/-- Model of `AvitoParser.parse_search_page` (src/parser.py lines 211–275): add
the local-priority parameter, then run the pagination loop from page 1
with an empty accumulator.  The fuel `limit + 1` is sufficient (see the
termination theorem), so the `getD` default is never taken. -/
def parseSearchPage (request : String → Option String)
    (select : String → List Fragment) (url : String) (limit : Nat)
    (localFirst : Bool) : List Record :=
  (parseSearchLoop request select (addLocalPriority localFirst url) limit
    (limit + 1) 1 []).getD []

/-! ### Lemmas: non-negativity of every price tier -/

lemma option_getD_zero_nonneg (o : Option ℚ) (h : ∀ q, o = some q → 0 ≤ q) :
    0 ≤ o.getD 0 := by
  cases o with
  | none => simp
  | some q => simpa using h q rfl

lemma pyFloatDD_nonneg (s : List Char) (q : ℚ) (h : pyFloatDD s = some q) :
    0 ≤ q := by
  unfold pyFloatDD at h
  split at h
  · injection h with h
    subst h
    positivity
  · simp at h

lemma markupPrice_nonneg (s : List Char) (q : ℚ) (h : markupPrice s = some q) :
    0 ≤ q := by
  unfold markupPrice at h
  repeat' split at h
  all_goals first
    | (injection h with h; subst h; positivity)
    | simp at h

lemma textPrice_nonneg (s : List Char) (q : ℚ) (h : textPrice s = some q) :
    0 ≤ q := by
  unfold textPrice at h
  split at h
  · simp at h
  · dsimp only at h
    split at h
    · injection h with h
      subst h
      positivity
    · simp at h

lemma tier12_nonneg (f : Fragment) : 0 ≤ tier12 f := by
  unfold tier12
  split
  · dsimp only
    split
    · exact le_refl 0
    · exact option_getD_zero_nonneg _ (fun q hq => pyFloatDD_nonneg _ q hq)
  · exact option_getD_zero_nonneg _ (fun q hq => markupPrice_nonneg _ q hq)

lemma extractPrice_nonneg (f : Fragment) : 0 ≤ extractPrice f := by
  unfold extractPrice
  split
  · split
    · exact textPrice_nonneg _ _ (by assumption)
    · exact tier12_nonneg f
  · exact tier12_nonneg f

/-! ### Claim C3 and C4: the extractor -/

/-- A fragment in which every selector fails and both free-text searches
have nothing to find. -/
def fragEmpty : Fragment := { htmlStr := "nope", fullText := "no price here" }

/-- Claim C3: `_parse_item` is total (it is a function of the model, and
every operation in its body is total, so the `except` branch of the source is
unreachable); in particular, on a fragment where no price selector
matches, no markup price pattern matches, and the visible-text price
search finds nothing, the price of the returned record is the zero
sentinel — no failure is raised. -/
theorem parse_item_no_price_match_zero (f : Fragment)
    (h1 : f.priceMarkerEl = none) (h2 : f.priceItempropEl = none)
    (h3 : f.priceStylesEl = none) (h4 : f.priceTextEl = none)
    (h5 : f.priceClassEl = none)
    (h6 : markupPrice f.htmlStr.toList = none)
    (h7 : textPrice f.fullText.toList = none) :
    (parseItem f).price = 0 := by
  simp only [String.toList] at h6 h7
  have ht : tier12 f = 0 := by
    simp [tier12, h1, h2, h3, h4, h5, h6]
  have he : extractPrice f = 0 := by
    simp [extractPrice, ht, h7]
  simp [parseItem, he]

/-- Witness for C3 at a concrete fragment. -/
theorem parse_item_no_price_match_zero_witness :
    (parseItem fragEmpty).price = 0 :=
  parse_item_no_price_match_zero fragEmpty rfl rfl rfl rfl rfl
    (by decide) (by decide)

/-- Claim C4: every record leaving the extractor — on the normal path
for an arbitrary fragment, and on the internal-failure path — carries
all six fields (intrinsic to the `Record` structure, which mirrors the
dict the source initialises with every key) and a non-negative rational
price (never a string, never `None`; finiteness is intrinsic to `ℚ`).
The failure-path record is exactly the all-default dict with the
diagnostic attached. -/
theorem parse_item_record_invariant (f : Fragment) (msg : String) :
    0 ≤ (parseItem f).price ∧
    parseItemError msg =
      { id := "", title := "", url := "", price := 0, date := "",
        location := "", error := some msg } := by
  constructor
  · have : (parseItem f).price = extractPrice f := rfl
    rw [this]
    exact extractPrice_nonneg f
  · rfl

/-! ### Lemmas: Python min/max bound the mean -/

lemma foldl_min_le_init (xs : List ℚ) : ∀ x : ℚ, xs.foldl min x ≤ x := by
  induction xs with
  | nil => intro x; exact le_refl x
  | cons y ys ih =>
    intro x
    calc ys.foldl min (min x y) ≤ min x y := ih (min x y)
      _ ≤ x := min_le_left x y

lemma foldl_min_le_mem (xs : List ℚ) :
    ∀ x y : ℚ, y ∈ xs → xs.foldl min x ≤ y := by
  induction xs with
  | nil => intro x y hy; cases hy
  | cons a ys ih =>
    intro x y hy
    rcases List.mem_cons.mp hy with h | h
    · subst h
      calc ys.foldl min (min x y) ≤ min x y := foldl_min_le_init ys (min x y)
        _ ≤ y := min_le_right x y
    · exact ih (min x a) y h

lemma pyMin_le_mem (l : List ℚ) (y : ℚ) (hy : y ∈ l) : pyMin l ≤ y := by
  cases l with
  | nil => cases hy
  | cons x xs =>
    rcases List.mem_cons.mp hy with h | h
    · subst h
      exact foldl_min_le_init xs y
    · exact foldl_min_le_mem xs x y h

lemma init_le_foldl_max (xs : List ℚ) : ∀ x : ℚ, x ≤ xs.foldl max x := by
  induction xs with
  | nil => intro x; exact le_refl x
  | cons y ys ih =>
    intro x
    calc x ≤ max x y := le_max_left x y
      _ ≤ ys.foldl max (max x y) := ih (max x y)

lemma mem_le_foldl_max (xs : List ℚ) :
    ∀ x y : ℚ, y ∈ xs → y ≤ xs.foldl max x := by
  induction xs with
  | nil => intro x y hy; cases hy
  | cons a ys ih =>
    intro x y hy
    rcases List.mem_cons.mp hy with h | h
    · subst h
      calc y ≤ max x y := le_max_right x y
        _ ≤ ys.foldl max (max x y) := init_le_foldl_max ys (max x y)
    · exact ih (max x a) y h

lemma mem_le_pyMax (l : List ℚ) (y : ℚ) (hy : y ∈ l) : y ≤ pyMax l := by
  cases l with
  | nil => cases hy
  | cons x xs =>
    rcases List.mem_cons.mp hy with h | h
    · subst h
      exact init_le_foldl_max xs y
    · exact mem_le_foldl_max xs x y h

lemma mul_length_le_sum (l : List ℚ) (m : ℚ) (h : ∀ y ∈ l, m ≤ y) :
    m * l.length ≤ l.sum := by
  induction l with
  | nil => simp
  | cons a t ih =>
    have ha : m ≤ a := h a (List.mem_cons_self a t)
    have ht := ih (fun y hy => h y (List.mem_cons_of_mem a hy))
    simp only [List.sum_cons, List.length_cons]
    push_cast
    nlinarith

lemma sum_le_mul_length (l : List ℚ) (M : ℚ) (h : ∀ y ∈ l, y ≤ M) :
    l.sum ≤ M * l.length := by
  induction l with
  | nil => simp
  | cons a t ih =>
    have ha : a ≤ M := h a (List.mem_cons_self a t)
    have ht := ih (fun y hy => h y (List.mem_cons_of_mem a hy))
    simp only [List.sum_cons, List.length_cons]
    push_cast
    nlinarith

lemma pyMin_le_mean (l : List ℚ) (h : l ≠ []) : pyMin l ≤ npMean l := by
  have hpos : 0 < (l.length : ℚ) := by
    exact_mod_cast List.length_pos.mpr h
  rw [npMean, le_div_iff₀ hpos]
  exact mul_length_le_sum l (pyMin l) (fun y hy => pyMin_le_mem l y hy)

lemma mean_le_pyMax (l : List ℚ) (h : l ≠ []) : npMean l ≤ pyMax l := by
  have hpos : 0 < (l.length : ℚ) := by
    exact_mod_cast List.length_pos.mpr h
  rw [npMean, div_le_iff₀ hpos]
  exact sum_le_mul_length l (pyMax l) (fun y hy => mem_le_pyMax l y hy)

/-! ### Claim C2: price statistics -/

/-- A record with the given price and all other fields defaulted. -/
def recOf (p : ℚ) : Record :=
  { id := "", title := "", url := "", price := p, date := "", location := "" }

/-- Claim C2: for every non-empty record list, `get_price_statistics`
reports `count` equal to the input length, and whenever some record has
a strictly positive price the average lies between the minimum and the
maximum (inclusive). -/
theorem stats_count_avg_bounds (data : List Record) (h : data ≠ []) :
    (getPriceStatistics data).count = data.length ∧
    ((∃ r ∈ data, 0 < r.price) →
      (getPriceStatistics data).min_price ≤ (getPriceStatistics data).avg_price ∧
      (getPriceStatistics data).avg_price ≤ (getPriceStatistics data).max_price) := by
  have hne : data.isEmpty = false := by simp [h]
  by_cases hz :
      ((data.map (fun r => r.price)).filter (fun p => decide (0 < p))).isEmpty
  · refine ⟨by simp [getPriceStatistics, hne, hz], ?_⟩
    rintro ⟨r, hr, hpos⟩
    exfalso
    have hm : r.price ∈
        (data.map (fun r => r.price)).filter (fun p => decide (0 < p)) := by
      rw [List.mem_filter]
      exact ⟨List.mem_map_of_mem (fun r => r.price) hr, by simpa using hpos⟩
    rw [List.isEmpty_iff] at hz
    rw [hz] at hm
    cases hm
  · have hnz :
        ((data.map (fun r => r.price)).filter (fun p => decide (0 < p))) ≠ [] := by
      simpa [List.isEmpty_iff] using hz
    refine ⟨by simp [getPriceStatistics, hne, hz], fun _ => ?_⟩
    have hmin : (getPriceStatistics data).min_price =
        pyMin ((data.map (fun r => r.price)).filter (fun p => decide (0 < p))) := by
      simp [getPriceStatistics, hne, hz]
    have havg : (getPriceStatistics data).avg_price =
        npMean ((data.map (fun r => r.price)).filter (fun p => decide (0 < p))) := by
      simp [getPriceStatistics, hne, hz]
    have hmax : (getPriceStatistics data).max_price =
        pyMax ((data.map (fun r => r.price)).filter (fun p => decide (0 < p))) := by
      simp [getPriceStatistics, hne, hz]
    rw [hmin, havg, hmax]
    exact ⟨pyMin_le_mean _ hnz, mean_le_pyMax _ hnz⟩

/-- Witness for C2 on a two-record list with positive prices. -/
theorem stats_count_avg_bounds_witness :
    (getPriceStatistics [recOf 3, recOf 5]).count = [recOf 3, recOf 5].length ∧
    ((getPriceStatistics [recOf 3, recOf 5]).min_price ≤
        (getPriceStatistics [recOf 3, recOf 5]).avg_price ∧
      (getPriceStatistics [recOf 3, recOf 5]).avg_price ≤
        (getPriceStatistics [recOf 3, recOf 5]).max_price) := by
  have h := stats_count_avg_bounds [recOf 3, recOf 5] (by simp)
  exact ⟨h.1, h.2 ⟨recOf 3, by simp, by norm_num [recOf]⟩⟩

/-! ### Claim C10: the zero-price count -/

lemma filter_pos_add_nonpos (data : List Record) :
    ((data.map (fun r => r.price)).filter (fun p => decide (0 < p))).length +
      (data.filter (fun r => decide (r.price ≤ 0))).length = data.length := by
  induction data with
  | nil => rfl
  | cons r t ih =>
    by_cases hp : 0 < r.price
    · have h1 : ¬r.price ≤ 0 := not_le.mpr hp
      simp only [List.map_cons, List.filter_cons]
      rw [if_pos (by simpa using hp), if_neg (by simpa using h1)]
      simp only [List.length_cons]
      omega
    · have h1 : r.price ≤ 0 := not_lt.mp hp
      simp only [List.map_cons, List.filter_cons]
      rw [if_neg (by simpa using hp), if_pos (by simpa using h1)]
      simp only [List.length_cons]
      omega

lemma length_filter_nonpos (data : List Record) :
    (data.map (fun r => r.price)).length -
      ((data.map (fun r => r.price)).filter (fun p => decide (0 < p))).length =
    (data.filter (fun r => decide (r.price ≤ 0))).length := by
  have h := filter_pos_add_nonpos data
  have hm : (data.map (fun r => r.price)).length = data.length :=
    List.length_map _ _
  omega

/-- Counterexample to C10 as stated: on the empty list the empty-input
branch of the source (src/analyzer.py lines 26–35) returns a dict without
the `zero_prices_count` key. -/
theorem stats_empty_omits_zero_prices_count :
    (getPriceStatistics []).zero_prices_count = none := rfl

/-- Claim C10 (amended): for every NON-empty input the statistics dict
carries the `zero_prices_count` key, and when at least one price is
strictly positive its value is the number of records whose price is not
strictly positive. -/
theorem stats_zero_prices_count_amended (data : List Record) (h : data ≠ []) :
    ((getPriceStatistics data).zero_prices_count).isSome = true ∧
    ((∃ r ∈ data, 0 < r.price) →
      (getPriceStatistics data).zero_prices_count =
        some ((data.filter (fun r => decide (r.price ≤ 0))).length)) := by
  have hne : data.isEmpty = false := by simp [h]
  by_cases hz :
      ((data.map (fun r => r.price)).filter (fun p => decide (0 < p))).isEmpty
  · refine ⟨by simp [getPriceStatistics, hne, hz], ?_⟩
    rintro ⟨r, hr, hpos⟩
    exfalso
    have hm : r.price ∈
        (data.map (fun r => r.price)).filter (fun p => decide (0 < p)) := by
      rw [List.mem_filter]
      exact ⟨List.mem_map_of_mem (fun r => r.price) hr, by simpa using hpos⟩
    rw [List.isEmpty_iff] at hz
    rw [hz] at hm
    cases hm
  · refine ⟨by simp [getPriceStatistics, hne, hz], fun _ => ?_⟩
    have hval : (getPriceStatistics data).zero_prices_count =
        some ((data.map (fun r => r.price)).length -
          ((data.map (fun r => r.price)).filter
            (fun p => decide (0 < p))).length) := by
      simp [getPriceStatistics, hne, hz]
    rw [hval, length_filter_nonpos]

/-- Witness for the amended C10. -/
theorem stats_zero_prices_count_amended_witness :
    ((getPriceStatistics [recOf 5, recOf 0]).zero_prices_count).isSome = true ∧
    (getPriceStatistics [recOf 5, recOf 0]).zero_prices_count =
      some (([recOf 5, recOf 0].filter (fun r => decide (r.price ≤ 0))).length) := by
  have h := stats_zero_prices_count_amended [recOf 5, recOf 0] (by simp)
  exact ⟨h.1, h.2 ⟨recOf 5, by simp, by norm_num [recOf]⟩⟩

/-! ### Claim C5: no division by zero in the comparison -/

/-- Claim C5: for non-empty inputs, `compare_with_previous` defines the
percentage deltas as 0 whenever the corresponding previous statistic is
non-positive, so the delta computation never divides by zero. -/
theorem compare_percent_zero_on_nonpos (cur prev : List Record)
    (h1 : cur ≠ []) (h2 : prev ≠ []) :
    ((getPriceStatistics prev).avg_price ≤ 0 →
      (compareWithPrevious cur prev).avg_price_change_percent = 0) ∧
    ((getPriceStatistics prev).median_price ≤ 0 →
      (compareWithPrevious cur prev).median_price_change_percent = 0) := by
  have hc : cur.isEmpty = false := by simp [h1]
  have hp : prev.isEmpty = false := by simp [h2]
  constructor
  · intro havg
    simp [compareWithPrevious, hc, hp, not_lt.mpr havg]
  · intro hmed
    simp [compareWithPrevious, hc, hp, not_lt.mpr hmed]

/-- Witness for C5: a previous data set whose average (and median) price
is 0 yields zero percentage deltas. -/
theorem compare_percent_zero_on_nonpos_witness :
    (compareWithPrevious [recOf 5] [recOf 0]).avg_price_change_percent = 0 ∧
    (compareWithPrevious [recOf 5] [recOf 0]).median_price_change_percent = 0 := by
  have h := compare_percent_zero_on_nonpos [recOf 5] [recOf 0] (by simp) (by simp)
  refine ⟨h.1 ?_, h.2 ?_⟩ <;> norm_num [getPriceStatistics, recOf]

/-! ### Claim C1: the outlier example -/

/-- The example input used by the spec: prices 100, 100, 100, 100, 10000. -/
def data5 : List Record :=
  [recOf 100, recOf 100, recOf 100, recOf 100, recOf 10000]

/-- Counterexample to C1 as stated: `find_outliers` with threshold 2.0 on
prices [100,100,100,100,10000] does NOT return the 10000 record. pandas
`std()` is the sample standard deviation (ddof=1) ≈ 4427.19, giving
|z| ≈ 1.79 for the 10000 record — under the threshold; even under the
population std preferred by the claim (= 3960 exactly) the z-score is exactly 2.0, not
strictly greater. -/
theorem find_outliers_data5_not_10000 :
    findOutliers data5 2 ≠ [recOf 10000] := by
  have h : findOutliers data5 2 = [] := by
    norm_num [findOutliers, data5, recOf, npMean, sampleVarSq, List.filter]
  simp [h]

/-- Claim C1 (amended): `find_outliers` with threshold 2.0 on prices
[100,100,100,100,10000] returns the empty list — no absolute z-score exceeds
2.0 under the sample standard deviation that pandas computes. -/
theorem find_outliers_data5_empty : findOutliers data5 2 = [] := by
  norm_num [findOutliers, data5, recOf, npMean, sampleVarSq, List.filter]

/-! ### Claim C8: the localPriority query parameter -/

/-- Counterexample to C8 as stated: a URL that already carries the
`localPriority=1` parameter — as the first query parameter, preceded by
`?` rather than `&` — is not left unchanged: the substring test
`"&localPriority=1" not in url` (src/parser.py line 224) misses it and
the parameter is appended a second time. -/
theorem add_local_priority_duplicates :
    containsSub "localPriority=1".toList
        "https://www.avito.ru/spb?localPriority=1".toList = true ∧
    addLocalPriority true "https://www.avito.ru/spb?localPriority=1" ≠
      "https://www.avito.ru/spb?localPriority=1" := by
  constructor
  · decide
  · decide

/-- Claim C8 (amended): with `local_first` enabled, a URL with a query
string gets `&localPriority=1` appended exactly when the SUBSTRING
`"&localPriority=1"` is absent (a URL already containing that substring
is unchanged), and a URL without a query string always gets
`?localPriority=1` appended. -/
theorem add_local_priority_amended (url : String) :
    (url.toList.contains '?' = true →
      (containsSub "&localPriority=1".toList url.toList = true →
        addLocalPriority true url = url) ∧
      (containsSub "&localPriority=1".toList url.toList = false →
        addLocalPriority true url = url ++ "&localPriority=1")) ∧
    (url.toList.contains '?' = false →
      addLocalPriority true url = url ++ "?localPriority=1") := by
  refine ⟨fun hq => ⟨fun hc => ?_, fun hc => ?_⟩, fun hq => ?_⟩
  · unfold addLocalPriority
    rw [hq, hc]
    simp
  · unfold addLocalPriority
    rw [hq, hc]
    simp
  · unfold addLocalPriority
    rw [hq]
    simp

/-- Witness for the amended C8 at a URL with a query string and no
local-priority parameter. -/
theorem add_local_priority_amended_witness :
    addLocalPriority true "https://a?q=2" = "https://a?q=2" ++ "&localPriority=1" :=
  ((add_local_priority_amended "https://a?q=2").1 (by decide)).2 (by decide)

/-! ### Claim C9: retry with linear backoff -/

/-- Sleep trace of the failing retry loop, as a function of the attempt
budget and the first attempt number. -/
lemma makeRequestGo_all_fail (m : Nat) (delay : ℚ) (resp : Nat → Option String)
    (jit : Nat → ℚ) :
    ∀ fuel attempt, attempt + fuel = m → (∀ i, i < m → resp i = none) →
      makeRequestGo m delay resp jit fuel attempt =
        (none, (List.range (fuel - 1)).map
          (fun k => delay * ((attempt + k + 1 : Nat) : ℚ) + jit (attempt + k))) := by
  intro fuel
  induction fuel with
  | zero => intro attempt _ _; rfl
  | succ n ih =>
    intro attempt hsum hfail
    have hatt : attempt < m := by omega
    have hr := hfail attempt hatt
    rw [makeRequestGo, hr]
    rw [ih (attempt + 1) (by omega) hfail]
    by_cases hn : 0 < n
    · have hlt : attempt < m - 1 := by omega
      rw [if_pos hlt]
      simp only [Nat.succ_sub_one]
      rw [show n = (n - 1) + 1 by omega]
      rw [List.range_succ_eq_map]
      simp only [List.map_cons, List.map_map, Nat.add_sub_cancel, Prod.mk.injEq]
      refine ⟨trivial, ?_⟩
      congr 1
      simp only [List.map_inj_left, Function.comp_apply, List.mem_range]
      intro a ha
      have e : attempt + 1 + a = attempt + (a + 1) := by omega
      rw [e]
    · have hn0 : n = 0 := by omega
      subst hn0
      have hlt : ¬attempt < m - 1 := by omega
      rw [if_neg hlt]
      simp

/-- Claim C9: when every attempt fails at the transport level,
`_make_request` makes exactly the configured number of attempts
(`max_retries`, default 3 in the configuration), sleeps
`delay * attempt_number + jitter` seconds between consecutive attempts —
a linear, not exponential, backoff, with `jit k` the oracle for
`random.uniform(0, 1)` — and finally returns `None` to the caller; no
exception escapes (the model is a total function). -/
theorem make_request_retries_backoff (m : Nat) (delay : ℚ)
    (resp : Nat → Option String) (jit : Nat → ℚ)
    (hfail : ∀ i, i < m → resp i = none) :
    makeRequest m delay resp jit =
      (none, (List.range (m - 1)).map
        (fun k => delay * ((k + 1 : Nat) : ℚ) + jit k)) := by
  have h := makeRequestGo_all_fail m delay resp jit m 0 (by omega) hfail
  rw [makeRequest, h]
  simp

/-- Witness for C9 with the default budget of 3 attempts, delay 2 and
jitter 1/2: two sleeps of 2·1 + 1/2 and 2·2 + 1/2 seconds, then `None`. -/
theorem make_request_retries_backoff_witness :
    makeRequest 3 2 (fun _ => none) (fun _ => (1 : ℚ) / 2) =
      (none, [5 / 2, 9 / 2]) := by
  rw [make_request_retries_backoff 3 2 (fun _ => none) (fun _ => (1 : ℚ) / 2)
    (fun i _ => rfl)]
  norm_num [List.range_succ]

/-! ### Claims C6 and C7: the paginator -/

lemma parseSearchLoop_acc2_length (items : List Fragment) (acc : List Record)
    (limit : Nat) :
    (acc ++ (items.take (min items.length (limit - acc.length))).map
      parseItem).length =
    acc.length + min items.length (limit - acc.length) := by
  simp only [List.length_append, List.length_map, List.length_take]
  omega

lemma parseSearchLoop_some (request : String → Option String)
    (select : String → List Fragment) (url : String) (limit : Nat) :
    ∀ fuel page acc, limit - acc.length < fuel →
      ∃ r, parseSearchLoop request select url limit fuel page acc = some r := by
  intro fuel
  induction fuel with
  | zero => intro page acc hfuel; omega
  | succ n ih =>
    intro page acc hfuel
    rw [parseSearchLoop]
    by_cases hlt : acc.length < limit
    · rw [if_pos hlt]
      cases hreq : request (pageUrlOf url page) with
      | none => exact ⟨acc, rfl⟩
      | some html =>
        dsimp only
        by_cases hhtml : html.isEmpty = true
        · rw [if_pos hhtml]
          exact ⟨acc, rfl⟩
        · rw [if_neg hhtml]
          by_cases hitems : (select html).isEmpty = true
          · rw [if_pos hitems]
            exact ⟨acc, rfl⟩
          · rw [if_neg hitems]
            have hilen : 0 < (select html).length := by
              cases hsel : select html with
              | nil => rw [hsel] at hitems; simp at hitems
              | cons a t => simp [hsel]
            have hlen := parseSearchLoop_acc2_length (select html) acc limit
            by_cases hfull : limit ≤ (acc ++ ((select html).take
                (min (select html).length (limit - acc.length))).map
                  parseItem).length
            · rw [if_pos hfull]
              exact ⟨_, rfl⟩
            · rw [if_neg hfull]
              by_cases hshort : (select html).length < 50
              · rw [if_pos hshort]
                exact ⟨_, rfl⟩
              · rw [if_neg hshort]
                exact ih (page + 1) _ (by rw [hlen]; omega)
    · rw [if_neg hlt]
      exact ⟨acc, rfl⟩

/-- Claim C7: the pagination loop of `parse_search_page` terminates for
every URL, limit, and oracle behaviour: within `limit - count + 1` page
iterations it stops — by reaching the limit, by fetch failure, by an
empty page, or by the short-page threshold of 50 — since every full
iteration strictly increases the collected count, which is bounded by
`limit`.  (`parseSearchPage` runs the loop with fuel `limit + 1`, which
this bound shows is never exhausted.) -/
theorem parse_search_loop_terminates (request : String → Option String)
    (select : String → List Fragment) (url : String) (limit : Nat)
    (fuel page : Nat) (acc : List Record)
    (hfuel : limit - acc.length < fuel) :
    (parseSearchLoop request select url limit fuel page acc).isSome = true := by
  obtain ⟨r, hr⟩ := parseSearchLoop_some request select url limit fuel page acc hfuel
  rw [hr]
  rfl

/-- Witness for C7 at a concrete oracle and fuel. -/
theorem parse_search_loop_terminates_witness :
    (parseSearchLoop (fun _ => none) (fun _ => ([] : List Fragment))
      "u" 0 1 1 []).isSome = true :=
  parse_search_loop_terminates (fun _ => none) (fun _ => ([] : List Fragment))
    "u" 0 1 1 [] (by decide)

lemma parseSearchLoop_reaches_limit (request : String → Option String)
    (select : String → List Fragment) (url : String) (limit : Nat)
    (hreq : ∀ u, ∃ s, request u = some s ∧ s.isEmpty = false ∧
      50 ≤ (select s).length) :
    ∀ fuel page acc, acc.length ≤ limit → limit - acc.length < fuel →
      ∃ r, parseSearchLoop request select url limit fuel page acc = some r ∧
        r.length = limit := by
  intro fuel
  induction fuel with
  | zero => intro page acc _ hfuel; omega
  | succ n ih =>
    intro page acc hle hfuel
    rw [parseSearchLoop]
    by_cases hlt : acc.length < limit
    · rw [if_pos hlt]
      obtain ⟨s, hs, hse, hsl⟩ := hreq (pageUrlOf url page)
      rw [hs]
      dsimp only
      rw [hse]
      rw [if_neg (by simp)]
      have hitems : ¬(select s).isEmpty = true := by
        intro hh
        rw [List.isEmpty_iff] at hh
        rw [hh] at hsl
        simp at hsl
      rw [if_neg hitems]
      have hlen := parseSearchLoop_acc2_length (select s) acc limit
      by_cases hfull : limit ≤ (acc ++ ((select s).take
          (min (select s).length (limit - acc.length))).map parseItem).length
      · rw [if_pos hfull]
        refine ⟨_, rfl, ?_⟩
        rw [hlen]
        omega
      · rw [if_neg hfull]
        have hshort : ¬(select s).length < 50 := by omega
        rw [if_neg hshort]
        exact ih (page + 1) _ (by rw [hlen]; omega) (by rw [hlen]; omega)
    · rw [if_neg hlt]
      exact ⟨acc, rfl, by omega⟩

/-- Claim C6 (amended): for every positive limit, when every page fetch
succeeds with non-empty content and yields at least the full-page
threshold of 50 fragments, `parse_search_page` returns exactly `limit`
records, stopping mid-page once the running count reaches the limit. -/
theorem parse_search_page_reaches_limit (request : String → Option String)
    (select : String → List Fragment) (url : String) (limit : Nat)
    (localFirst : Bool) (_hpos : 0 < limit)
    (hreq : ∀ u, ∃ s, request u = some s ∧ s.isEmpty = false ∧
      50 ≤ (select s).length) :
    (parseSearchPage request select url limit localFirst).length = limit := by
  obtain ⟨r, hr, hl⟩ := parseSearchLoop_reaches_limit request select
    (addLocalPriority localFirst url) limit hreq (limit + 1) 1 []
    (by simp) (by simp)
  rw [parseSearchPage, hr]
  simpa using hl

/-- A fetch oracle that always returns the same non-empty body. -/
def reqConst : String → Option String := fun _ => some "h"

/-- A page oracle yielding three fragments per page. -/
def selThree : String → List Fragment := fun _ => [fragEmpty, fragEmpty, fragEmpty]

/-- A page oracle yielding fifty fragments per page. -/
def selFifty : String → List Fragment := fun _ => List.replicate 50 fragEmpty

/-- Witness for the amended C6: full 50-fragment pages, limit 2. -/
theorem parse_search_page_reaches_limit_witness :
    (parseSearchPage reqConst selFifty "u" 2 true).length = 2 :=
  parse_search_page_reaches_limit reqConst selFifty "u" 2 true (by decide)
    (fun u => ⟨"h", rfl, rfl, by simp [selFifty]⟩)

/-- Counterexample to C6 as stated: an oracle where every fetch succeeds
and every page yields at least one fragment (three, in fact), yet with
limit 5 the loop stops at the short-page check (3 < 50) after a single
page and returns 3 records, not 5. -/
theorem parse_search_page_three_not_five :
    (∀ u, ∃ s, reqConst u = some s ∧ s.isEmpty = false ∧
      1 ≤ (selThree s).length) ∧
    (parseSearchPage reqConst selThree "u" 5 true).length ≠ 5 := by
  constructor
  · intro u
    exact ⟨"h", rfl, rfl, by simp [selThree]⟩
  · have h : (parseSearchPage reqConst selThree "u" 5 true).length = 3 := by rfl
    omega
